import Mathlib

/-!
Verification of the BiliBili stream-resolution extractor
(`src/youtube_dl/extractor/bilibili.py`).

The definitions below are a shallow embedding of the Python source:
pure helper functions become Lean functions, Python exceptions become
`Except`, machine/JSON integers become `Int`/`Nat`, Python floats arising
from `/ 1000`-style divisions are modelled exactly as rationals (`ℚ`),
and JSON dictionaries become structures whose `Option` fields record key
presence.  Functions of the repository that live outside `src/`
(`youtube_dl/utils.py`, `youtube_dl/extractor/common.py`) are modelled
from the specification and marked as such in their doc comments.
-/

/-- Decidable equality for `Except`, so that claims about fallible code can
be settled by evaluation. -/
instance {ε α : Type} [DecidableEq ε] [DecidableEq α] : DecidableEq (Except ε α) :=
  fun x y =>
    match x, y with
    | .ok a, .ok b => decidable_of_iff (a = b) (by simp)
    | .error a, .error b => decidable_of_iff (a = b) (by simp)
    | .ok _, .error _ => .isFalse (by simp)
    | .error _, .ok _ => .isFalse (by simp)

namespace Bilibili

/-! ## Python-style primitive helpers -/

/-- Boolean prefix test on lists (used to model Python's substring test). -/
def isPrefixB {α : Type} [DecidableEq α] : List α → List α → Bool
  | [], _ => true
  | _ :: _, [] => false
  | a :: as, b :: bs => a = b && isPrefixB as bs

/-- Boolean infix test on lists: `isInfixB needle hay` holds iff `needle`
occurs contiguously inside `hay`. -/
def isInfixB {α : Type} [DecidableEq α] (needle : List α) : List α → Bool
  | [] => needle.isEmpty
  | b :: rest => isPrefixB needle (b :: rest) || isInfixB needle rest

/-- Python's substring containment `sub in s`. -/
def strContainsStr (s sub : String) : Bool := isInfixB sub.data s.data

/-- Python's single-character containment `c in s`. -/
def strContainsChar (s : String) (c : Char) : Bool := s.data.contains c

/-- Helper for `pySplitChar`: split the remaining characters at every
occurrence of `c`, `acc` holding the current piece reversed. -/
def splitOnCharAux (c : Char) : List Char → List Char → List (List Char)
  | [], acc => [acc.reverse]
  | x :: xs, acc =>
    if x = c then acc.reverse :: splitOnCharAux c xs []
    else splitOnCharAux c xs (x :: acc)

/-- Python's `s.split(c)` for a one-character separator: every occurrence
splits, empty pieces are kept. -/
def pySplitChar (s : String) (c : Char) : List String :=
  (splitOnCharAux c s.data []).map (fun l => ⟨l⟩)

/-- Interpret a list of decimal digit characters as a natural number
(`none` if empty or a non-digit occurs). -/
def digitsToNat : List Char → Option Nat
  | [] => none
  | cs => cs.foldl (fun acc c =>
      match acc with
      | none => none
      | some n => if c.isDigit then some (n * 10 + (c.toNat - 48)) else none)
      (some 0)

/-- Python's `int(s)` on a string restricted to its ASCII core: optional
surrounding whitespace, an optional sign, then decimal digits; `none`
when the string does not parse. -/
def pyIntParse (s : String) : Option Int :=
  let cs := (s.data.dropWhile Char.isWhitespace).reverse.dropWhile Char.isWhitespace |>.reverse
  match cs with
  | '-' :: rest => (digitsToNat rest).map (fun n => -(n : Int))
  | '+' :: rest => (digitsToNat rest).map (fun n => (n : Int))
  | rest => (digitsToNat rest).map (fun n => (n : Int))

/-- Modelled from the spec: `int_or_none` of `youtube_dl/utils.py` (not under
`src/`): parse a plain integer, `none` when the value is absent, empty or
unparsable ("nullable if absent or unparsable"). -/
def int_or_none (s : Option String) : Option Int := s.bind pyIntParse

/-- Modelled from the spec: `float_or_none(v, scale)` of
`youtube_dl/utils.py` (not under `src/`): a millisecond count divided by
`scale`, `none` when absent.  The Python float division is modelled
exactly in `ℚ`. -/
def float_or_none (v : Option Int) (scale : Int) : Option ℚ :=
  v.map (fun n => (n : ℚ) / (scale : ℚ))

/-- Python 3's `round(a / b)` for integers `a` and `b ≠ 0`, computed
exactly: the nearest integer to the rational `a / b`, ties to the even
integer (banker's rounding). -/
def pyDivRound (a b : Int) : Int :=
  let s : Int := if b < 0 then -1 else 1
  let a2 := s * a
  let b2 := s * b
  let f := Int.fdiv a2 b2
  let r := a2 - f * b2
  if 2 * r < b2 then f
  else if b2 < 2 * r then f + 1
  else if f % 2 = 0 then f else f + 1

/-! ## A stable sort (Python's `sorted` and youtube-dl's format sorting)

Python's `sorted` is a stable sort by a total preorder; a stable sort is
uniquely determined by the order relation, so insertion sort models it
faithfully.  `le a b = true` means `a` may come no later than `b`. -/

/-- Insert `a` into `l` in front of the first element `b` with `le a b`. -/
def pyInsert {α : Type} (le : α → α → Bool) (a : α) : List α → List α
  | [] => [a]
  | b :: l => if le a b then a :: b :: l else b :: pyInsert le a l

/-- Stable insertion sort with respect to `le`. -/
def pySort {α : Type} (le : α → α → Bool) : List α → List α
  | [] => []
  | a :: l => pyInsert le a (pySort le l)

theorem pyInsert_perm {α : Type} (le : α → α → Bool) (a : α) (l : List α) :
    (pyInsert le a l).Perm (a :: l) := by
  induction l with
  | nil => simp [pyInsert]
  | cons b l ih =>
    by_cases h : le a b = true
    · simp [pyInsert, h]
    · simp only [pyInsert, if_neg h]
      exact (ih.cons b).trans (List.Perm.swap a b l)

theorem pySort_perm {α : Type} (le : α → α → Bool) (l : List α) :
    (pySort le l).Perm l := by
  induction l with
  | nil => simp [pySort]
  | cons a l ih => exact (pyInsert_perm le a (pySort le l)).trans (ih.cons a)

theorem pairwise_pyInsert {α : Type} (le : α → α → Bool)
    (htotal : ∀ a b, le a b = true ∨ le b a = true)
    (htrans : ∀ a b c, le a b = true → le b c = true → le a c = true)
    (a : α) (l : List α) (hl : l.Pairwise (fun x y => le x y = true)) :
    (pyInsert le a l).Pairwise (fun x y => le x y = true) := by
  induction l with
  | nil => simp [pyInsert]
  | cons b l ih =>
    rcases List.pairwise_cons.mp hl with ⟨hb, hl'⟩
    by_cases h : le a b = true
    · simp only [pyInsert, if_pos h]
      refine List.pairwise_cons.mpr ⟨?_, hl⟩
      intro x hx
      rcases List.mem_cons.mp hx with rfl | hx
      · exact h
      · exact htrans a b x h (hb x hx)
    · simp only [pyInsert, if_neg h]
      refine List.pairwise_cons.mpr ⟨?_, ih hl'⟩
      intro x hx
      have hmem := (pyInsert_perm le a l).mem_iff.mp hx
      rcases List.mem_cons.mp hmem with rfl | hxl
      · rcases htotal x b with hab | hba
        · exact absurd hab h
        · exact hba
      · exact hb x hxl

theorem pairwise_pySort {α : Type} (le : α → α → Bool)
    (htotal : ∀ a b, le a b = true ∨ le b a = true)
    (htrans : ∀ a b c, le a b = true → le b c = true → le a c = true)
    (l : List α) :
    (pySort le l).Pairwise (fun x y => le x y = true) := by
  induction l with
  | nil => simp [pySort]
  | cons a l ih => exact pairwise_pyInsert le htotal htrans a (pySort le l) ih

theorem filter_pyInsert_pos {α : Type} (le : α → α → Bool) (p : α → Bool)
    (a : α) (l : List α) (hpa : p a = true)
    (hle : ∀ b, p b = true → le a b = true) :
    (pyInsert le a l).filter p = a :: l.filter p := by
  induction l with
  | nil => simp [pyInsert, hpa]
  | cons b l ih =>
    by_cases h : le a b = true
    · simp [pyInsert, h, hpa]
    · have hpb : p b = false := by
        cases hpb : p b
        · rfl
        · exact absurd (hle b hpb) h
      simp [pyInsert, h, hpb, ih]

theorem filter_pyInsert_neg {α : Type} (le : α → α → Bool) (p : α → Bool)
    (a : α) (l : List α) (hpa : p a = false) :
    (pyInsert le a l).filter p = l.filter p := by
  induction l with
  | nil => simp [pyInsert, hpa]
  | cons b l ih =>
    by_cases h : le a b = true
    · simp [pyInsert, h, hpa]
    · cases hpb : p b <;> simp [pyInsert, h, hpb, ih, hpa]

/-- Stability: elements selected by a key-respecting predicate keep their
original relative order through `pySort`. -/
theorem filter_pySort {α : Type} (le : α → α → Bool) (p : α → Bool)
    (hp : ∀ a b, p a = true → p b = true → le a b = true)
    (l : List α) : (pySort le l).filter p = l.filter p := by
  induction l with
  | nil => simp [pySort]
  | cons a l ih =>
    cases hpa : p a
    · simp only [pySort]
      rw [filter_pyInsert_neg le p a (pySort le l) hpa, ih]
      simp [List.filter_cons, hpa]
    · simp only [pySort]
      rw [filter_pyInsert_pos le p a (pySort le l) hpa (fun b hb => hp a b hpa hb), ih]
      simp [List.filter_cons, hpa]

/-! ## Data model

`Format` is the normalized stream-candidate dictionary built by the
extractor; `Option` fields model dictionary keys that the source only
sometimes sets. -/

structure Format where
  url : String
  format_id : Option String := none
  ext : Option String := none
  format_note : Option String := none
  fps : Option Int := none
  filesize_approx : Option ℚ := none
  filesize : Option Int := none
  vcodec : Option String := none
  acodec : Option String := none
  vbr : Option ℚ := none
  abr : Option ℚ := none
  width : Option Int := none
  height : Option Int := none
  preference : Option Int := none
  http_headers : List (String × String) := []
deriving DecidableEq

/-- Effective preference used by the ranker: the `preference` key when set,
default `0`. -/
def prefOf (f : Format) : Int := f.preference.getD 0

/-- Resolution proxy used by the ranker. -/
def resOf (f : Format) : Int := f.width.getD 0 * f.height.getD 0

/-- Bitrate proxy used by the ranker (video bitrate, else audio bitrate). -/
def brOf (f : Format) : ℚ := (f.vbr.getD (f.abr.getD 0))

/-- Modelled from the spec: the Candidate Ranker (`_sort_formats` of
`common.py`, not under `src/`) orders best-first by descending priority:
1) `preference` (higher first), 2) resolution, 3) bitrate, stable on ties.
`formatLe f g` holds when `f` may come no later than `g`. -/
def formatLe (f g : Format) : Bool :=
  decide (prefOf g < prefOf f ∨
    (prefOf f = prefOf g ∧ (resOf g < resOf f ∨
      (resOf f = resOf g ∧ brOf g ≤ brOf f))))

theorem formatLe_total : ∀ f g, formatLe f g = true ∨ formatLe g f = true := by
  intro f g
  simp only [formatLe, decide_eq_true_eq]
  rcases lt_trichotomy (prefOf f) (prefOf g) with h | h | h
  · exact Or.inr (Or.inl h)
  · rcases lt_trichotomy (resOf f) (resOf g) with h2 | h2 | h2
    · exact Or.inr (Or.inr ⟨h.symm, Or.inl h2⟩)
    · rcases le_total (brOf g) (brOf f) with h3 | h3
      · exact Or.inl (Or.inr ⟨h, Or.inr ⟨h2, h3⟩⟩)
      · exact Or.inr (Or.inr ⟨h.symm, Or.inr ⟨h2.symm, h3⟩⟩)
    · exact Or.inl (Or.inr ⟨h, Or.inl h2⟩)
  · exact Or.inl (Or.inl h)

theorem formatLe_trans : ∀ f g h, formatLe f g = true → formatLe g h = true →
    formatLe f h = true := by
  intro f g h
  simp only [formatLe, decide_eq_true_eq]
  rintro (h1 | ⟨h1e, h1r⟩) (h2 | ⟨h2e, h2r⟩)
  · exact Or.inl (h2.trans h1)
  · exact Or.inl (h2e ▸ h1)
  · exact Or.inl (h1e ▸ h2)
  · refine Or.inr ⟨h1e.trans h2e, ?_⟩
    rcases h1r with h1r | ⟨h1re, h1rb⟩ <;> rcases h2r with h2r | ⟨h2re, h2rb⟩
    · exact Or.inl (h2r.trans h1r)
    · exact Or.inl (h2re ▸ h1r)
    · exact Or.inl (h1re ▸ h2r)
    · exact Or.inr ⟨h1re.trans h2re, h2rb.trans h1rb⟩

/-- Modelled from the spec: `self._sort_formats(formats)` — deterministic,
stable, best-first ranking of a candidate list. -/
def sortFormats (formats : List Format) : List Format := pySort formatLe formats

/-- One entry of the legacy API's `durl` array: a physical part with a
primary `url`, exact `size`, optional millisecond `length` and a list of
`backup_url`s. -/
structure Durl where
  url : String
  size : Int
  length : Option Int := none
  backup_url : List String := []
deriving DecidableEq

/-- A legacy-API response dictionary (`video_info`).  `Option` fields model
key presence; `otherKeys` records whether the dictionary carries any keys
beyond the modelled ones, so that Python truthiness of the dictionary is
expressible. -/
structure VideoInfo where
  durl : Option (List Durl) := none
  timelength : Option Int := none
  message : Option String := none
  code : Option Int := none
  otherKeys : Bool := false
deriving DecidableEq

/-- Python truthiness of the `video_info` dictionary: falsy iff empty. -/
def VideoInfo.isFalsy (vi : VideoInfo) : Bool :=
  vi.durl.isNone && vi.timelength.isNone && vi.message.isNone &&
    vi.code.isNone && !vi.otherKeys

/-- One track of the DASH-style `video[]`/`audio[]` arrays. -/
structure Media where
  baseUrl : Option String := none
  base_url : Option String := none
  id : Option Int := none
  codecid : Option Int := none
  bandwidth : Option Int := none
  codecs : Option String := none
  frameRate : Option String := none
  frame_rate : Option String := none
  width : Option Int := none
  height : Option Int := none
deriving DecidableEq

/-- The `dash` member of the page-embedded playinfo payload. -/
structure Dash where
  video : Option (List Media) := none
  audio : Option (List Media) := none
deriving DecidableEq

/-- The page-embedded `window.__playinfo__` data payload. -/
structure Playinfo where
  dash : Option Dash := none
  timelength : Option Int := none
  accept_quality : List Int := []
  accept_description : List String := []
deriving DecidableEq

/-- One resolved entry dictionary.  Fields beyond `id`, `duration` and
`formats` are the shared page metadata merged in by `entry.update(info)`. -/
structure Entry where
  id : String
  title : Option String := none
  description : Option String := none
  timestamp : Option Int := none
  thumbnail : Option String := none
  uploader : Option String := none
  uploader_id : Option String := none
  duration : Option ℚ := none
  formats : List Format := []
deriving DecidableEq

/-! ## DASH normalization (`BiliBiliIE.extract_playinfo`, bilibili.py 124-181) -/

/-- Python's `a or b` on an optional string with default `b` for the second
operand: the first operand unless it is absent or falsy (empty). -/
def pyOrStr (a : Option String) (b : String) : String :=
  match a with
  | some s => if s = "" then b else s
  | none => b

/-- The raw frame-rate string of a track:
`media.get('frameRate') or media.get('frame_rate', '')` (bilibili.py 142). -/
def rawFrameRate (m : Media) : String := pyOrStr m.frameRate (m.frame_rate.getD "")

/-- Frame-rate parsing, bilibili.py 143-147: a string containing `/` is
split and parsed as `round(int(parts[0]) / int(parts[1]))` — where a
non-integer part raises `ValueError` and a zero denominator raises
`ZeroDivisionError` — and any other string goes through `int_or_none`. -/
def parseFrameRate (raw : String) : Except String (Option Int) :=
  if strContainsChar raw '/' then
    match pySplitChar raw '/' with
    | p0 :: p1 :: _ =>
      match pyIntParse p0, pyIntParse p1 with
      | some a, some b =>
        if b = 0 then .error "ZeroDivisionError"
        else .ok (some (pyDivRound a b))
      | _, _ => .error "ValueError"
    | _ => .error "ValueError"
  else
    .ok (int_or_none (some raw))

/-- Quality-description lookup built from the parallel
`accept_quality`/`accept_description` arrays (bilibili.py 129-131); for a
duplicated quality id the Python dict comprehension keeps the last pair. -/
def qualityDesc (accept_quality : List Int) (accept_description : List String)
    (id : Int) : Option String :=
  (accept_quality.zip accept_description).foldl
    (fun acc kv => if kv.1 = id then some kv.2 else acc) none

/-- Normalization of one DASH track (the body of `load`, bilibili.py
133-170): tracks without a truthy URL or without an id are skipped; frame
rate parse errors propagate. -/
def normalizeMedia (qd : Int → Option String) (duration : Option ℚ)
    (is_video : Bool) (m : Media) : Except String (Option Format) := do
  let url := pyOrStr m.baseUrl (pyOrStr m.base_url "")
  let format_id :=
    match m.id, m.codecid with
    | some i, some c => if c = 0 then toString i else toString i ++ "_" ++ toString c
    | some i, none => toString i
    | none, some c => if c = 0 then "None" else "None_" ++ toString c
    | none, none => "None"
  match m.id with
  | some id =>
    if url = "" then pure none
    else do
      let bandwidth : Option ℚ := m.bandwidth.map (fun b => (b : ℚ) / 1000)
      let frame_rate ← parseFrameRate (rawFrameRate m)
      let base : Format :=
        { url := url
          ext := some (if is_video then "mp4" else "m4a")
          format_id := some format_id
          format_note := qd id
          fps := frame_rate
          filesize_approx :=
            match bandwidth, duration with
            | some b, some d => if b ≠ 0 ∧ d ≠ 0 then some (b * d * 1000 / 8) else none
            | _, _ => none }
      if is_video then
        pure (some { base with
          vcodec := m.codecs
          acodec := some "none"
          vbr := bandwidth
          width := m.width
          height := m.height })
      else
        pure (some { base with
          acodec := m.codecs
          vcodec := some "none"
          abr := bandwidth })
  | none => pure none

/-- `load` over a whole track array, left to right, collecting the
candidates of the tracks that were not skipped. -/
def loadArr (qd : Int → Option String) (duration : Option ℚ)
    (is_video : Bool) : List Media → Except String (List Format)
  | [] => pure []
  | m :: ms => do
    let f ← normalizeMedia qd duration is_video m
    let rest ← loadArr qd duration is_video ms
    pure (f.toList ++ rest)

/-- The playinfo entry produced by `extract_playinfo`: a duration and a
ranked candidate list. -/
structure PEntry where
  duration : Option ℚ := none
  formats : List Format := []
deriving DecidableEq

/-- `BiliBiliIE.extract_playinfo` (bilibili.py 124-181).  Returns
`.ok none` when there is no `dash` member, when `video`/`audio` is absent
or empty, or when every track was skipped; propagates frame-rate parse
exceptions; otherwise returns the ranked candidates and the millisecond
`timelength` converted to seconds. -/
def extract_playinfo (p : Playinfo) : Except String (Option PEntry) :=
  match p.dash with
  | none => .ok none
  | some dash =>
    let duration : Option ℚ := p.timelength.map (fun t => (t : ℚ) / 1000)
    let qd := qualityDesc p.accept_quality p.accept_description
    match dash.video, dash.audio with
    | some (v :: vs), some (a :: as) => do
      let vf ← loadArr qd duration true (v :: vs)
      let af ← loadArr qd duration false (a :: as)
      let formats := vf ++ af
      match formats with
      | [] => pure none
      | _ => pure (some { duration := duration, formats := sortFormats formats })
    | _, _ => .ok none

/-! ## Legacy (durl) path and the rendition loop
(`BiliBiliIE._real_extract`, bilibili.py 226-278) -/

/-- Unranked candidate list of one `durl` part (bilibili.py 246-261): the
primary URL (exact `size`, no preference key) followed by the backup URLs
(`preference = -2` when the URL contains `"hd.mp4"`, else `-3`); every
candidate gets a `Referer` header pointing at the page URL. -/
def rawPartFormats (durl : Durl) (pageUrl : String) : List Format :=
  { url := durl.url
    filesize := some durl.size
    http_headers := [("Referer", pageUrl)] } ::
  durl.backup_url.map (fun backup_url =>
    { url := backup_url
      preference := some (if strContainsStr backup_url "hd.mp4" then -2 else -3)
      http_headers := [("Referer", pageUrl)] })

/-- Ranked candidate list of one `durl` part (bilibili.py 263). -/
def partFormats (durl : Durl) (pageUrl : String) : List Format :=
  sortFormats (rawPartFormats durl pageUrl)

/-- Entries built from a `durl` array (bilibili.py 246-269), starting at
0-based part index `idx`: per-part id `"<videoID>_part<idx>"` and per-part
duration from the part's millisecond `length`. -/
def legacyEntriesFrom (video_id pageUrl : String) (idx : Nat) :
    List Durl → List Entry
  | [] => []
  | d :: ds =>
    { id := video_id ++ "_part" ++ toString idx
      duration := float_or_none d.length 1000
      formats := partFormats d pageUrl } ::
    legacyEntriesFrom video_id pageUrl (idx + 1) ds

/-- Entries of a full `durl` payload. -/
def legacyEntries (video_id pageUrl : String) (durls : List Durl) : List Entry :=
  legacyEntriesFrom video_id pageUrl 0 durls

/-- Extractor name used in error messages: the class name minus the `IE`
suffix (`InfoExtractor.IE_NAME` of `common.py`, not under `src/`). -/
def IE_NAME : String := "BiliBili"

/-- Message of the error raised by `BiliBiliIE._report_error`
(bilibili.py 116-122): the provider `message` verbatim when present, else
the provider `code`, else a generic cannot-extract message. -/
def reportErrorMsg (result : VideoInfo) : String :=
  match result.message with
  | some m => IE_NAME ++ " said: " ++ m
  | none =>
    match result.code with
    | some c => IE_NAME ++ " returns error " ++ toString c
    | none => "Can\x27t extract Bangumi episode ID"

/-- Errors a resolution can raise. -/
inductive PyErr where
  /-- A fatal `_download_json` failure (transport or JSON decode error on
  the last rendition).  Modelled from the spec: `fatal=True` downloads
  raise, non-fatal ones return a falsy value (`common.py`, not under
  `src/`). -/
  | downloadError
  /-- An `ExtractorError` raised by `_report_error` carrying the given
  message. -/
  | extractorError (msg : String)
deriving DecidableEq

/-- Outcome of fetching one rendition of the legacy API. -/
inductive FetchOutcome where
  /-- The fetch or the JSON decode failed. -/
  | fail
  /-- The fetch produced the JSON dictionary `vi`. -/
  | resp (vi : VideoInfo)
deriving DecidableEq

/-- The rendition fallback loop (bilibili.py 228-270), one `FetchOutcome`
per rendition in order.  A failed fetch raises on the last rendition and
is skipped otherwise (`fatal=num == len(RENDITIONS)`); a falsy response is
skipped (`if not video_info: continue`); a response missing `durl` is
skipped unless it is the last rendition, where `_report_error` raises; the
first response carrying `durl` is turned into entries and breaks the loop.
Returns the entries together with the last fetched `video_info`. -/
def runRenditions (video_id pageUrl : String) :
    List FetchOutcome → Except PyErr (List Entry × Option VideoInfo)
  | [] => .ok ([], none)
  | o :: rest =>
    match o with
    | .fail =>
      if rest.isEmpty then .error .downloadError
      else runRenditions video_id pageUrl rest
    | .resp vi =>
      if vi.isFalsy then
        if rest.isEmpty then .ok ([], some vi)
        else runRenditions video_id pageUrl rest
      else
        match vi.durl with
        | none =>
          if rest.isEmpty then .error (.extractorError (reportErrorMsg vi))
          else runRenditions video_id pageUrl rest
        | some ds => .ok (legacyEntries video_id pageUrl ds, some vi)

/-! ## Merging the DASH entry into the legacy entries
(bilibili.py 272-278) -/

/-- The playinfo entry as an entry dictionary with its freshly assigned id
(bilibili.py 277). -/
def pentryToEntry (video_id : String) (pe : PEntry) : Entry :=
  { id := video_id, duration := pe.duration, formats := pe.formats }

/-- Merge policy (bilibili.py 272-278): with a playinfo entry present, its
candidates are appended to the first legacy entry's candidate list, or —
when the legacy path produced nothing — the playinfo entry becomes the
sole entry with id `video_id`. -/
def mergePlayinfo (video_id : String) (entries : List Entry)
    (pe : Option PEntry) : List Entry :=
  match pe with
  | none => entries
  | some pe =>
    match entries with
    | [] => [pentryToEntry video_id pe]
    | e :: rest => { e with formats := e.formats ++ pe.formats } :: rest

/-! ## Shared page metadata and entry composition
(bilibili.py 280-328) -/

/-- The shared `info` dictionary (bilibili.py 292-311): page metadata plus
the whole-video duration from the last legacy response's millisecond
`timelength`.  `uploader` always ends up as a key of `info` (possibly
`None`); `uploader_id` is only a key when the profile-link pattern
matched. -/
structure Info where
  id : String
  title : String
  description : Option String := none
  timestamp : Option Int := none
  thumbnail : Option String := none
  uploader : Option String := none
  uploader_id : Option String := none
  duration : Option ℚ := none
deriving DecidableEq

/-- Build `info` from the page metadata and the last legacy response
(bilibili.py 292-299). -/
def mkInfo (video_id title : String) (description : Option String)
    (timestamp : Option Int) (thumbnail : Option String)
    (uploader : Option String) (uploader_id : Option String)
    (vi : Option VideoInfo) : Info :=
  { id := video_id
    title := title
    description := description
    timestamp := timestamp
    thumbnail := thumbnail
    uploader := uploader
    uploader_id := uploader_id
    duration := float_or_none (vi.bind VideoInfo.timelength) 1000 }

/-- `entry.update(info)` over all entries (bilibili.py 313-314): every key
of `info` overwrites the entry's value; `uploader_id` is only overwritten
when it is a key of `info`. -/
def applySharedInfo (info : Info) (entries : List Entry) : List Entry :=
  entries.map (fun e =>
    { e with
      id := info.id
      title := some info.title
      description := info.description
      timestamp := info.timestamp
      thumbnail := info.thumbnail
      uploader := info.uploader
      uploader_id := info.uploader_id.orElse (fun _ => e.uploader_id)
      duration := info.duration })

/-- The final shape of a resolution (bilibili.py 316-328). -/
inductive ExtractResult where
  /-- A single resolved entry, returned directly. -/
  | single (e : Entry)
  /-- A `multi_video` composite carrying the parent id, title and
  description. -/
  | multiVideo (id : String) (title : String) (description : Option String)
      (entries : List Entry)
deriving DecidableEq

/-- Re-assign composite part ids `"<videoID>_part<N>"`, `N` 1-based
(bilibili.py 319-320), starting at 0-based index `idx`. -/
def renumberFrom (video_id : String) (idx : Nat) : List Entry → List Entry
  | [] => []
  | e :: es =>
    { e with id := video_id ++ "_part" ++ toString (idx + 1) } ::
    renumberFrom video_id (idx + 1) es

/-- The Entry Composer (bilibili.py 316-328): exactly one entry is returned
directly, otherwise the renumbered entries are wrapped in a `multi_video`
composite. -/
def compose (video_id title : String) (description : Option String)
    (entries : List Entry) : ExtractResult :=
  match entries with
  | [e] => .single e
  | _ => .multiVideo video_id title description (renumberFrom video_id 0 entries)

/-! ## Season/episode composition
(`BiliBiliBangumiIE._real_extract`, bilibili.py 374-395) -/

/-- One episode of the season index. -/
structure Episode where
  webplay_url : String
  update_time : Option String := none
  index_title : Option String := none
  index : Option String := none
deriving DecidableEq

/-- A playlist entry built from one episode (bilibili.py 382-389).  The
smuggled URL and the ISO-8601 timestamp parse are external utilities with
no bearing on any claim; the raw values are kept. -/
structure BEntry where
  url : String
  update_time : Option String := none
  episode : Option String := none
  episode_number : Option Int := none
deriving DecidableEq

/-- The episode entries in index order (bilibili.py 382-389). -/
def mkBangumiEntries (episodes : List Episode) : List BEntry :=
  episodes.map (fun ep =>
    { url := ep.webplay_url
      update_time := ep.update_time
      episode := ep.index_title
      episode_number := int_or_none ep.index })

/-- The ordering of `sorted(entries, key=lambda entry:
entry.get('episode_number'))` under Python 2 comparison semantics, where
`None` compares below every integer.  (Under Python 3 the same line raises
`TypeError` as soon as a `None` key meets an integer key.) -/
def epNumLe : Option Int → Option Int → Bool
  | none, _ => true
  | some _, none => false
  | some a, some b => a ≤ b

/-- `sorted` over the episode entries (bilibili.py 391). -/
def sortBangumiEntries (entries : List BEntry) : List BEntry :=
  pySort (fun e1 e2 => epNumLe e1.episode_number e2.episode_number) entries

/-! ## The legacy-API signer (bilibili.py 113-114 and 230-231)

`hashlib.md5` is embedded in full: 32-bit words are naturals reduced
mod `2 ^ 32`. -/

def APP_KEY : String := "iVGUTjsxvpLeuDCf"

def BILIBILI_KEY : String := "aHRmhWMLkdeMuILqORnYZocwMBpMEOdt"

/-- The two fixed rendition query templates (bilibili.py 228). -/
def RENDITIONS : List String := ["qn=80&quality=80&type=", "quality=2&type=mp4"]

/-- UTF-8 encoding of one character (Python's `str.encode('utf-8')`). -/
def utf8Char (c : Char) : List Nat :=
  let n := c.toNat
  if n < 128 then [n]
  else if n < 2048 then [192 + n / 64, 128 + n % 64]
  else if n < 65536 then [224 + n / 4096, 128 + n / 64 % 64, 128 + n % 64]
  else [240 + n / 262144, 128 + n / 4096 % 64, 128 + n / 64 % 64, 128 + n % 64]

/-- UTF-8 byte sequence of a string. -/
def strBytes (s : String) : List Nat := s.data.flatMap utf8Char

/-- The 64 MD5 sine-table constants. -/
def md5K : List Nat :=
  [0xd76aa478, 0xe8c7b756, 0x242070db, 0xc1bdceee,
   0xf57c0faf, 0x4787c62a, 0xa8304613, 0xfd469501,
   0x698098d8, 0x8b44f7af, 0xffff5bb1, 0x895cd7be,
   0x6b901122, 0xfd987193, 0xa679438e, 0x49b40821,
   0xf61e2562, 0xc040b340, 0x265e5a51, 0xe9b6c7aa,
   0xd62f105d, 0x02441453, 0xd8a1e681, 0xe7d3fbc8,
   0x21e1cde6, 0xc33707d6, 0xf4d50d87, 0x455a14ed,
   0xa9e3e905, 0xfcefa3f8, 0x676f02d9, 0x8d2a4c8a,
   0xfffa3942, 0x8771f681, 0x6d9d6122, 0xfde5380c,
   0xa4beea44, 0x4bdecfa9, 0xf6bb4b60, 0xbebfbc70,
   0x289b7ec6, 0xeaa127fa, 0xd4ef3085, 0x04881d05,
   0xd9d4d039, 0xe6db99e5, 0x1fa27cf8, 0xc4ac5665,
   0xf4292244, 0x432aff97, 0xab9423a7, 0xfc93a039,
   0x655b59c3, 0x8f0ccc92, 0xffeff47d, 0x85845dd1,
   0x6fa87e4f, 0xfe2ce6e0, 0xa3014314, 0x4e0811a1,
   0xf7537e82, 0xbd3af235, 0x2ad7d2bb, 0xeb86d391]

/-- The 64 MD5 per-round left-rotation amounts. -/
def md5S : List Nat :=
  [7, 12, 17, 22, 7, 12, 17, 22, 7, 12, 17, 22, 7, 12, 17, 22,
   5, 9, 14, 20, 5, 9, 14, 20, 5, 9, 14, 20, 5, 9, 14, 20,
   4, 11, 16, 23, 4, 11, 16, 23, 4, 11, 16, 23, 4, 11, 16, 23,
   6, 10, 15, 21, 6, 10, 15, 21, 6, 10, 15, 21, 6, 10, 15, 21]

/-- 32-bit left rotation of a word below `2 ^ 32`. -/
def rotl32 (x n : Nat) : Nat := (x * 2 ^ n) % 4294967296 + x / 2 ^ (32 - n)

/-- Little-endian byte decomposition, `count` bytes. -/
def leBytes : Nat → Nat → List Nat
  | _, 0 => []
  | n, k + 1 => (n % 256) :: leBytes (n / 256) k

/-- Little-endian 32-bit words of a chunk of bytes. -/
def toWords : List Nat → List Nat
  | b0 :: b1 :: b2 :: b3 :: rest =>
    (b0 + 256 * b1 + 65536 * b2 + 16777216 * b3) :: toWords rest
  | _ => []

/-- One MD5 round on the state `(a, b, c, d)` with message words `M`. -/
def md5Round (M : List Nat) (st : Nat × Nat × Nat × Nat) (i : Nat) :
    Nat × Nat × Nat × Nat :=
  let (a, b, c, d) := st
  let mask := 4294967295
  let f :=
    if i < 16 then (b &&& c) ||| ((b ^^^ mask) &&& d)
    else if i < 32 then (d &&& b) ||| ((d ^^^ mask) &&& c)
    else if i < 48 then b ^^^ c ^^^ d
    else c ^^^ (b ||| (d ^^^ mask))
  let g :=
    if i < 16 then i
    else if i < 32 then (5 * i + 1) % 16
    else if i < 48 then (3 * i + 5) % 16
    else (7 * i) % 16
  let tmp := (f + a + md5K.getD i 0 + M.getD g 0) % 4294967296
  (d, (b + rotl32 tmp (md5S.getD i 0)) % 4294967296, b, c)

/-- Process one 64-byte chunk. -/
def md5Chunk (st : Nat × Nat × Nat × Nat) (chunk : List Nat) :
    Nat × Nat × Nat × Nat :=
  let M := toWords chunk
  let r := (List.range 64).foldl (md5Round M) st
  ((st.1 + r.1) % 4294967296, (st.2.1 + r.2.1) % 4294967296,
   (st.2.2.1 + r.2.2.1) % 4294967296, (st.2.2.2 + r.2.2.2) % 4294967296)

/-- Split a byte list into 64-byte chunks (structural recursion on a fuel
counter so that the kernel can evaluate it). -/
def chunks64Fuel : Nat → List Nat → List (List Nat)
  | _, [] => []
  | 0, _ => []
  | fuel + 1, l => l.take 64 :: chunks64Fuel fuel (l.drop 64)

/-- Split a byte list into 64-byte chunks. -/
def chunks64 (l : List Nat) : List (List Nat) := chunks64Fuel l.length l

/-- MD5 padding: `0x80`, zeros to 56 mod 64, then the bit length as eight
little-endian bytes. -/
def md5Pad (msg : List Nat) : List Nat :=
  msg ++ 128 :: List.replicate ((119 - msg.length % 64) % 64) 0 ++
    leBytes (msg.length * 8) 8

/-- The 16-byte MD5 digest of a byte sequence. -/
def md5Bytes (msg : List Nat) : List Nat :=
  let r := (chunks64 (md5Pad msg)).foldl md5Chunk
    (0x67452301, 0xefcdab89, 0x98badcfe, 0x10325476)
  leBytes r.1 4 ++ leBytes r.2.1 4 ++ leBytes r.2.2.1 4 ++ leBytes r.2.2.2 4

/-- Lowercase hex digit. -/
def hexDigit (n : Nat) : Char :=
  if n < 10 then Char.ofNat (48 + n) else Char.ofNat (87 + n)

/-- Python's `hashlib.md5(s.encode('utf-8')).hexdigest()`. -/
def md5hex (s : String) : String :=
  ⟨(md5Bytes (strBytes s)).flatMap (fun b => [hexDigit (b / 16), hexDigit (b % 16)])⟩

/-- The signed legacy-API payload (bilibili.py 230):
`'appkey=%s&cid=%s&otype=json&%s' % (_APP_KEY, cid, rendition)`. -/
def mkPayload (cid rendition : String) : String :=
  "appkey=" ++ APP_KEY ++ "&cid=" ++ cid ++ "&otype=json&" ++ rendition

/-- The request signature (bilibili.py 231):
`hashlib.md5((payload + _BILIBILI_KEY).encode('utf-8')).hexdigest()`. -/
def mkSign (cid rendition : String) : String :=
  md5hex (mkPayload cid rendition ++ BILIBILI_KEY)

/-- Written from the spec's words (§4.3), for comparison with the source's
payload construction: `key=value` pairs joined by `&` in caller-specified
order. -/
def canonicalQuery : List (String × String) → String
  | [] => ""
  | [kv] => kv.1 ++ "=" ++ kv.2
  | kv :: rest => kv.1 ++ "=" ++ kv.2 ++ "&" ++ canonicalQuery rest

/-! ## Helper lemmas about the ranker -/

theorem formatLe_pref {f g : Format} (h : formatLe f g = true) :
    prefOf g ≤ prefOf f := by
  simp only [formatLe, decide_eq_true_eq] at h
  rcases h with h | ⟨h, _⟩
  · exact le_of_lt h
  · exact le_of_eq h.symm

theorem sortFormats_perm (formats : List Format) :
    (sortFormats formats).Perm formats := pySort_perm formatLe formats

theorem sortFormats_pairwise (formats : List Format) :
    (sortFormats formats).Pairwise (fun f g => formatLe f g = true) :=
  pairwise_pySort formatLe formatLe_total formatLe_trans formats

/-! ## Claim theorems -/

/-- Claim C3: for every legacy multi-part (durl) part and any order of its
backup URLs, normalization gives the primary URL preference 0 (by
default), each `"hd.mp4"` backup preference `-2` and every other backup
`-3`, and after ranking a candidate with strictly larger preference comes
strictly earlier, so every hd.mp4 backup ranks strictly above every other
backup and all backups rank strictly below the primary. -/
theorem claim_C3 (d : Durl) (pageUrl : String) :
    (rawPartFormats d pageUrl).map prefOf =
      0 :: d.backup_url.map
        (fun b => if strContainsStr b "hd.mp4" then (-2 : Int) else -3) ∧
    (rawPartFormats d pageUrl).map Format.url = d.url :: d.backup_url ∧
    (partFormats d pageUrl).Perm (rawPartFormats d pageUrl) ∧
    ∀ i j pi pj, ((partFormats d pageUrl).get? i).map prefOf = some pi →
      ((partFormats d pageUrl).get? j).map prefOf = some pj →
      pj < pi → i < j := by
  refine ⟨?_, ?_, sortFormats_perm _, ?_⟩
  · simp [rawPartFormats, prefOf, List.map_map, Function.comp_def]
  · simp [rawPartFormats, List.map_map, Function.comp_def]
  · intro i j pi pj hi hj hlt
    rcases Option.map_eq_some'.mp hi with ⟨fi, hfi, rfl⟩
    rcases Option.map_eq_some'.mp hj with ⟨fj, hfj, rfl⟩
    rcases List.get?_eq_some.mp hfi with ⟨hilen, hgi⟩
    rcases List.get?_eq_some.mp hfj with ⟨hjlen, hgj⟩
    by_contra hcon
    push_neg at hcon
    rcases lt_or_eq_of_le hcon with hji | hji
    · have hpw : (partFormats d pageUrl).Pairwise (fun f g => formatLe f g = true) :=
        sortFormats_pairwise (rawPartFormats d pageUrl)
      have hp := List.pairwise_iff_get.mp hpw ⟨j, hjlen⟩ ⟨i, hilen⟩ hji
      have hle := formatLe_pref hp
      rw [hgi, hgj] at hle
      omega
    · subst hji
      rw [hfi] at hfj
      have : fi = fj := by injection hfj
      subst this
      omega

/-- Written from claim C4's words, for comparison with `parseFrameRate`:
a raw string containing `/` is parsed as numerator/denominator and rounded
to the nearest integer, any other string is parsed as a plain integer, and
an absent or unparsable value (including the empty string) yields null. -/
def claimFrameRate (raw : String) : Option Int :=
  if strContainsChar raw '/' then
    match pySplitChar raw '/' with
    | p0 :: p1 :: _ =>
      match pyIntParse p0, pyIntParse p1 with
      | some a, some b => if b = 0 then none else some (pyDivRound a b)
      | _, _ => none
    | _ => none
  else int_or_none (some raw)

/-- The fraction branch of the frame-rate parser succeeds: both parts parse
as integers and the denominator is not zero. -/
def fracOk (raw : String) : Bool :=
  match pySplitChar raw '/' with
  | p0 :: p1 :: _ =>
    match pyIntParse p0, pyIntParse p1 with
    | some _, some b => decide (b ≠ 0)
    | _, _ => false
  | _ => false

/-- Claim C4 (amended): frame-rate parsing behaves as the claim states —
`"30000/1001"` gives 30, `"24"` gives 24, the empty string gives null, and
a slash-free unparsable string gives null — except that a raw string
containing `/` whose parts do not both parse as integers, or whose
denominator is zero, raises an error instead of yielding null. -/
theorem claim_C4 :
    (∀ raw : String, strContainsChar raw '/' = false ∨ fracOk raw = true →
      parseFrameRate raw = .ok (claimFrameRate raw)) ∧
    (∀ raw : String, strContainsChar raw '/' = true → fracOk raw = false →
      ∀ v, parseFrameRate raw ≠ .ok v) ∧
    parseFrameRate "30000/1001" = .ok (some 30) ∧
    parseFrameRate "24" = .ok (some 24) ∧
    parseFrameRate "" = .ok none := by
  refine ⟨?_, ?_, by decide, by decide, by decide⟩
  · intro raw h
    by_cases hc : strContainsChar raw '/' = true
    · rcases h with h | h
      · rw [hc] at h
        exact absurd h (by simp)
      · simp only [parseFrameRate, claimFrameRate, if_pos hc]
        rcases hsp : pySplitChar raw '/' with _ | ⟨p0, _ | ⟨p1, rest⟩⟩
        · simp [fracOk, hsp] at h
        · simp [fracOk, hsp] at h
        · rcases ha : pyIntParse p0 with _ | a
          · simp [fracOk, hsp, ha] at h
          · rcases hb : pyIntParse p1 with _ | b
            · simp [fracOk, hsp, ha, hb] at h
            · simp only [fracOk, hsp, ha, hb, decide_eq_true_eq] at h
              simp [hsp, ha, hb, h]
    · have hc' : strContainsChar raw '/' = false := by
        cases hcc : strContainsChar raw '/'
        · rfl
        · exact absurd hcc hc
      simp [parseFrameRate, claimFrameRate, hc']
  · intro raw hc hf v
    simp only [parseFrameRate, if_pos hc]
    rcases hsp : pySplitChar raw '/' with _ | ⟨p0, _ | ⟨p1, rest⟩⟩
    · simp [hsp]
    · simp [hsp]
    · rcases ha : pyIntParse p0 with _ | a
      · simp [hsp, ha]
      · rcases hb : pyIntParse p1 with _ | b
        · simp [hsp, ha, hb]
        · simp only [fracOk, hsp, ha, hb, decide_eq_true_eq] at hf
          have : b = 0 := by
            by_contra hb0
            simp [hb0] at hf
          simp [hsp, ha, hb, this]

/-- Witness for claim C4 at the spec's own example input. -/
theorem claim_C4_witness :
    (strContainsChar "30000/1001" '/' = false ∨ fracOk "30000/1001" = true) ∧
    parseFrameRate "30000/1001" = .ok (claimFrameRate "30000/1001") :=
  ⟨Or.inr (by decide), claim_C4.1 "30000/1001" (Or.inr (by decide))⟩

/-- Counterexample to claim C4 as stated: the unparsable value `"a/b"`
contains `/`, and the code raises `ValueError` instead of yielding null. -/
theorem claim_C4_cx :
    parseFrameRate "a/b" = .error "ValueError" ∧
    claimFrameRate "a/b" = none ∧
    parseFrameRate "a/b" ≠ .ok none := by decide

def wC3Durl : Durl :=
  { url := "http://p.flv", size := 100,
    backup_url := ["http://b1-hd.mp4", "http://b2.flv"] }

/-- Witness for claim C3: on a part with one hd.mp4 backup and one plain
backup, the hd.mp4 backup (preference -2, position 1 after ranking) ranks
strictly above the plain backup (preference -3, position 2). -/
theorem claim_C3_witness :
    (((partFormats wC3Durl "http://page").get? 1).map prefOf = some (-2) ∧
     ((partFormats wC3Durl "http://page").get? 2).map prefOf = some (-3) ∧
     (-3 : Int) < -2) ∧ 1 < 2 :=
  ⟨⟨by decide, by decide, by decide⟩,
   (claim_C3 wC3Durl "http://page").2.2.2 1 2 (-2) (-3)
     (by decide) (by decide) (by decide)⟩

/-- Claim C5: a DASH payload whose video or audio track array is absent or
empty normalizes to no candidates, and candidates are only produced when
both arrays are present and non-empty. -/
theorem claim_C5 (p : Playinfo) (d : Dash) (hd : p.dash = some d) :
    ((d.video = none ∨ d.video = some [] ∨ d.audio = none ∨ d.audio = some []) →
      extract_playinfo p = .ok none) ∧
    ∀ pe, extract_playinfo p = .ok (some pe) →
      (∃ v vs, d.video = some (v :: vs)) ∧ ∃ a aas, d.audio = some (a :: aas) := by
  constructor
  · intro h
    rcases hv : d.video with _ | (_ | ⟨v, vs⟩) <;>
      rcases ha : d.audio with _ | (_ | ⟨a, aas⟩) <;>
      simp only [extract_playinfo, hd, hv, ha] <;> try rfl
    rw [hv, ha] at h
    rcases h with h | h | h | h <;> simp at h
  · intro pe hpe
    rcases hv : d.video with _ | (_ | ⟨v, vs⟩)
    · exfalso
      rcases ha : d.audio with _ | (_ | ⟨a, aas⟩) <;>
        simp [extract_playinfo, hd, hv, ha] at hpe
    · exfalso
      rcases ha : d.audio with _ | (_ | ⟨a, aas⟩) <;>
        simp [extract_playinfo, hd, hv, ha] at hpe
    · rcases ha : d.audio with _ | (_ | ⟨a, aas⟩)
      · exfalso
        simp [extract_playinfo, hd, hv, ha] at hpe
      · exfalso
        simp [extract_playinfo, hd, hv, ha] at hpe
      · exact ⟨⟨v, vs, rfl⟩, ⟨a, aas, rfl⟩⟩

def wC5Playinfo : Playinfo :=
  { dash := some { video := some [{ baseUrl := some "http://v.m4s", id := some 16 }],
                   audio := none } }

/-- Witness for claim C5: a payload with a video track array but no audio
array yields no candidates. -/
theorem claim_C5_witness :
    wC5Playinfo.dash = some { video := some [{ baseUrl := some "http://v.m4s", id := some 16 }],
                              audio := none } ∧
    extract_playinfo wC5Playinfo = .ok none :=
  ⟨rfl, (claim_C5 wC5Playinfo _ rfl).1 (Or.inr (Or.inr (Or.inl rfl)))⟩

/-- Claim C1: when the legacy path produced entries and the page-embedded
DASH payload normalized to candidates, the DASH candidates are appended to
the first legacy entry's candidate list only (every other entry and every
other field of the first entry unchanged); when the legacy path produced
no entries, the DASH entry becomes the sole entry with id `video_id`. -/
theorem claim_C1 (video_id : String) (p : Playinfo) (pe : PEntry)
    (entries : List Entry) (hpe : extract_playinfo p = .ok (some pe)) :
    (∀ e rest, entries = e :: rest →
      mergePlayinfo video_id entries (some pe) =
        { e with formats := e.formats ++ pe.formats } :: rest ∧
      ∀ i, 1 ≤ i →
        (mergePlayinfo video_id entries (some pe)).get? i = entries.get? i) ∧
    (entries = [] →
      mergePlayinfo video_id entries (some pe) = [pentryToEntry video_id pe] ∧
      pentryToEntry video_id pe =
        { id := video_id, duration := pe.duration, formats := pe.formats }) := by
  constructor
  · rintro e rest rfl
    refine ⟨rfl, ?_⟩
    intro i hi
    rcases i with _ | i
    · omega
    · simp [mergePlayinfo]
  · rintro rfl
    exact ⟨rfl, rfl⟩

def wPlayinfo : Playinfo :=
  { dash := some { video := some [{ baseUrl := some "http://v.m4s", id := some 16 }],
                   audio := some [{ base_url := some "http://a.m4s", id := some 30216 }] } }

def wPE : PEntry :=
  { duration := none
    formats := [{ url := "http://v.m4s", format_id := some "16",
                  ext := some "mp4", acodec := some "none" },
                { url := "http://a.m4s", format_id := some "30216",
                  ext := some "m4a", vcodec := some "none" }] }

def wEntryA : Entry := { id := "x_part0", formats := [{ url := "http://p1.flv" }] }

def wEntryB : Entry := { id := "x_part1", formats := [{ url := "http://p2.flv" }] }

/-- Witness for claim C1: a DASH payload that normalizes to two candidates
merged into two legacy entries extends the first entry's candidates and
leaves the second entry exactly as it was. -/
theorem claim_C1_witness :
    extract_playinfo wPlayinfo = .ok (some wPE) ∧
    mergePlayinfo "8903802" [wEntryA, wEntryB] (some wPE) =
      { wEntryA with formats := wEntryA.formats ++ wPE.formats } :: [wEntryB] ∧
    (mergePlayinfo "8903802" [wEntryA, wEntryB] (some wPE)).get? 1 = some wEntryB :=
  ⟨by decide,
   ((claim_C1 "8903802" wPlayinfo wPE [wEntryA, wEntryB] (by decide)).1
     wEntryA [wEntryB] rfl).1,
   by
     have h := ((claim_C1 "8903802" wPlayinfo wPE [wEntryA, wEntryB] (by decide)).1
       wEntryA [wEntryB] rfl).2 1 (by decide)
     rw [h]
     rfl⟩

/-- Claim C2 (amended): renditions are attempted in order — a fetch
failure, a falsy response or a response missing `durl` on a non-last
rendition moves on to the next rendition; the first response carrying
`durl` stops the iteration regardless of what follows; on the last
rendition a fetch failure raises the download error and a non-falsy
response missing `durl` raises that rendition's provider error; however an
empty (falsy) response on the last rendition is silently skipped rather
than fatal. -/
theorem claim_C2 (video_id pageUrl : String) :
    (∀ o rest, rest ≠ [] →
      (o = .fail ∨ ∃ vi, o = .resp vi ∧ (vi.isFalsy = true ∨ vi.durl = none)) →
      runRenditions video_id pageUrl (o :: rest) =
        runRenditions video_id pageUrl rest) ∧
    (∀ vi ds rest, vi.durl = some ds →
      runRenditions video_id pageUrl (.resp vi :: rest) =
        .ok (legacyEntries video_id pageUrl ds, some vi)) ∧
    runRenditions video_id pageUrl [.fail] = .error .downloadError ∧
    (∀ vi, vi.isFalsy = false → vi.durl = none →
      runRenditions video_id pageUrl [.resp vi] =
        .error (.extractorError (reportErrorMsg vi))) := by
  refine ⟨?_, ?_, rfl, ?_⟩
  · intro o rest hrest h
    have hre : rest.isEmpty = false := by
      cases rest
      · exact absurd rfl hrest
      · rfl
    rcases h with rfl | ⟨vi, rfl, hvi⟩
    · simp [runRenditions, hre]
    · rcases hvi with hvi | hvi
      · simp [runRenditions, hre, hvi]
      · cases hf : vi.isFalsy
        · simp [runRenditions, hre, hvi, hf]
        · simp [runRenditions, hre, hvi, hf]
  · intro vi ds rest hds
    have hf : vi.isFalsy = false := by
      simp [VideoInfo.isFalsy, hds]
    simp [runRenditions, hf, hds]
  · intro vi hf hds
    simp [runRenditions, hf, hds]

def wEmptyVI : VideoInfo := {}

/-- Counterexample to claim C2 as stated: with the first rendition's fetch
failing and the last rendition answering an empty (falsy) dictionary — a
response missing the `durl` field — the loop ends without raising: the
result is a success with no entries, not that rendition's error. -/
theorem claim_C2_cx :
    wEmptyVI.durl = none ∧
    runRenditions "1074402" "http://page" [.fail, .resp wEmptyVI] =
      .ok ([], some wEmptyVI) := by decide

def wC2VI : VideoInfo :=
  { durl := some [{ url := "http://p.flv", size := 100 }], timelength := some 308067 }

/-- Witness for claim C2: a first rendition carrying `durl` stops the
iteration even with a rendition still pending. -/
theorem claim_C2_witness :
    wC2VI.durl = some [{ url := "http://p.flv", size := 100 }] ∧
    runRenditions "1074402" "http://page" [.resp wC2VI, .fail] =
      .ok (legacyEntries "1074402" "http://page"
        [{ url := "http://p.flv", size := 100 }], some wC2VI) :=
  ⟨rfl, (claim_C2 "1074402" "http://page").2.1 wC2VI
    [{ url := "http://p.flv", size := 100 }] [.fail] rfl⟩

/-- Claim C6: exactly one resolved entry is returned directly with no
composite wrapper; two or more entries get ids
`"<parentID>_part<N>"` with `N` the 1-based position, wrapped in an
ordered `multi_video` composite carrying the parent id, title and
description. -/
theorem claim_C6 (video_id title : String) (description : Option String)
    (entries : List Entry) :
    (∀ e, entries = [e] → compose video_id title description entries = .single e) ∧
    (2 ≤ entries.length →
      compose video_id title description entries =
        .multiVideo video_id title description (renumberFrom video_id 0 entries) ∧
      (renumberFrom video_id 0 entries).length = entries.length ∧
      ∀ i ei, entries.get? i = some ei →
        (renumberFrom video_id 0 entries).get? i =
          some { ei with id := video_id ++ "_part" ++ toString (i + 1) }) := by
  have hlen : ∀ (idx : Nat) (l : List Entry),
      (renumberFrom video_id idx l).length = l.length := by
    intro idx l
    induction l generalizing idx with
    | nil => rfl
    | cons e es ih => simp [renumberFrom, ih]
  have hget : ∀ (l : List Entry) (idx i : Nat) (ei : Entry), l.get? i = some ei →
      (renumberFrom video_id idx l).get? i =
        some { ei with id := video_id ++ "_part" ++ toString (idx + i + 1) } := by
    intro l
    induction l with
    | nil => intro idx i ei h; simp at h
    | cons e es ih =>
      intro idx i ei h
      rcases i with _ | i
      · simp at h
        subst h
        rfl
      · simp only [List.get?_cons_succ] at h
        have := ih (idx + 1) i ei h
        simpa [renumberFrom, Nat.add_assoc, Nat.add_comm 1 i] using this
  constructor
  · rintro e rfl
    rfl
  · intro hlen2
    rcases entries with _ | ⟨a, _ | ⟨b, rest⟩⟩
    · simp at hlen2
    · simp at hlen2
    · refine ⟨rfl, hlen 0 _, ?_⟩
      intro i ei h
      have := hget (a :: b :: rest) 0 i ei h
      simpa using this

def wC6E1 : Entry := { id := "8903802_part0", formats := [{ url := "http://p1.flv" }] }

def wC6E2 : Entry := { id := "8903802_part1", formats := [{ url := "http://p2.flv" }] }

/-- Witness for claim C6: two entries are wrapped in a composite and
renumbered `_part1`, `_part2`; a single entry is returned directly. -/
theorem claim_C6_witness :
    compose "8903802" "t" none [wC6E1, wC6E2] =
      .multiVideo "8903802" "t" none (renumberFrom "8903802" 0 [wC6E1, wC6E2]) ∧
    (renumberFrom "8903802" 0 [wC6E1, wC6E2]).get? 1 =
      some { wC6E2 with id := "8903802" ++ "_part" ++ toString (1 + 1) } ∧
    compose "8903802" "t" none [wC6E1] = .single wC6E1 :=
  ⟨((claim_C6 "8903802" "t" none [wC6E1, wC6E2]).2 (by decide)).1,
   ((claim_C6 "8903802" "t" none [wC6E1, wC6E2]).2 (by decide)).2.2 1 wC6E2 rfl,
   (claim_C6 "8903802" "t" none [wC6E1]).1 wC6E1 rfl⟩

/-- `epNumLe` is total. -/
theorem epNumLe_total : ∀ a b, epNumLe a b = true ∨ epNumLe b a = true := by
  intro a b
  rcases a with _ | a <;> rcases b with _ | b <;> simp [epNumLe] <;> omega

/-- `epNumLe` is transitive. -/
theorem epNumLe_trans : ∀ a b c, epNumLe a b = true → epNumLe b c = true →
    epNumLe a c = true := by
  intro a b c hab hbc
  rcases a with _ | a <;> rcases b with _ | b <;> rcases c with _ | c <;>
    simp [epNumLe] at * <;> omega

/-- Claim C7 (amended): the season composite sorts the episode entries by
`episode_number` with a stable sort in which entries with no usable number
come BEFORE all numbered entries (Python 2 comparison semantics, where
`None` sorts below every integer; under Python 3 the same sort raises
`TypeError` when numbered and unnumbered entries mix), numbered entries
ascending, and equal or absent numbers keeping their input order; input
numbers `[3, null, 1]` produce output order `[null, 1, 3]`. -/
theorem claim_C7 (episodes : List Episode) :
    (sortBangumiEntries (mkBangumiEntries episodes)).Perm
      (mkBangumiEntries episodes) ∧
    (sortBangumiEntries (mkBangumiEntries episodes)).Pairwise
      (fun e1 e2 => epNumLe e1.episode_number e2.episode_number = true) ∧
    ∀ k : Option Int,
      (sortBangumiEntries (mkBangumiEntries episodes)).filter
        (fun e => e.episode_number = k) =
      (mkBangumiEntries episodes).filter (fun e => e.episode_number = k) := by
  refine ⟨pySort_perm _ _, ?_, ?_⟩
  · exact pairwise_pySort _
      (fun (a b : BEntry) => epNumLe_total a.episode_number b.episode_number)
      (fun (a b c : BEntry) =>
        epNumLe_trans a.episode_number b.episode_number c.episode_number)
      _
  · intro k
    refine filter_pySort _ _ ?_ _
    intro a b ha hb
    simp only [decide_eq_true_eq] at ha hb
    rw [ha, hb]
    rcases k with _ | k <;> simp [epNumLe]

def wEp3 : Episode := { webplay_url := "http://e3", index := some "3" }

def wEpN : Episode := { webplay_url := "http://en" }

def wEp1 : Episode := { webplay_url := "http://e1", index := some "1" }

/-- Counterexample to claim C7 as stated: episode numbers `[3, null, 1]`
compose to order `[null, 1, 3]` — the unnumbered entry sorts FIRST, not
last as the claim states. -/
theorem claim_C7_cx :
    (sortBangumiEntries (mkBangumiEntries [wEp3, wEpN, wEp1])).map
      BEntry.episode_number = [none, some 1, some 3] ∧
    ([none, some 1, some 3] : List (Option Int)) ≠ [some 1, some 3, none] := by
  decide

/-- Claim C8: the signed payload is the `key=value` pairs joined by `&` in
the caller-specified order (never sorted), and the signature is the
hex-encoded MD5 digest of the payload concatenated with the private key;
identical inputs give identical signatures. -/
theorem claim_C8 (cid : String) :
    mkPayload cid (RENDITIONS.getD 0 "") =
      canonicalQuery [("appkey", APP_KEY), ("cid", cid), ("otype", "json"),
        ("qn", "80"), ("quality", "80"), ("type", "")] ∧
    mkPayload cid (RENDITIONS.getD 1 "") =
      canonicalQuery [("appkey", APP_KEY), ("cid", cid), ("otype", "json"),
        ("quality", "2"), ("type", "mp4")] ∧
    (∀ rendition, mkSign cid rendition =
      md5hex (mkPayload cid rendition ++ BILIBILI_KEY)) ∧
    ∀ cid2 rendition rendition2, cid = cid2 → rendition = rendition2 →
      mkSign cid rendition = mkSign cid2 rendition2 := by
  refine ⟨?_, ?_, fun _ => rfl, ?_⟩
  · apply String.ext
    simp only [mkPayload, canonicalQuery, RENDITIONS, APP_KEY, List.getD]
    simp only [String.data_append]
    simp only [List.append_assoc]
    rfl
  · apply String.ext
    simp only [mkPayload, canonicalQuery, RENDITIONS, APP_KEY, List.getD]
    simp only [String.data_append]
    simp only [List.append_assoc]
    rfl
  · intro cid2 rendition rendition2 h1 h2
    rw [h1, h2]

/-- Witness for claim C8 at the source's second rendition. -/
theorem claim_C8_witness :
    (("123" : String) = "123" ∧
     ("quality=2&type=mp4" : String) = "quality=2&type=mp4") ∧
    mkSign "123" "quality=2&type=mp4" = mkSign "123" "quality=2&type=mp4" :=
  ⟨⟨rfl, rfl⟩,
   (claim_C8 "123").2.2.2 "123" "quality=2&type=mp4" "quality=2&type=mp4" rfl rfl⟩

set_option maxRecDepth 100000 in
/-- Regression pin of the embedded MD5: the signature of a concrete request
equals the digest `hashlib.md5` produces for the same bytes. -/
theorem mkSign_pinned :
    mkSign "123" (RENDITIONS.getD 1 "") = "8d1c6c931c4c3c6ea601d8012ff19a6e" := by
  decide

theorem isPrefixB_refl {α : Type} [DecidableEq α] :
    ∀ l : List α, isPrefixB l l = true := by
  intro l
  induction l with
  | nil => rfl
  | cons a as ih => simp [isPrefixB, ih]

theorem isInfixB_append_self {α : Type} [DecidableEq α] :
    ∀ x m : List α, isInfixB m (x ++ m) = true := by
  intro x
  induction x with
  | nil =>
    intro m
    cases m with
    | nil => rfl
    | cons c cs => simp [isInfixB, isPrefixB_refl]
  | cons a x ih =>
    intro m
    simp [isInfixB, ih m]

/-- Claim C9 (amended): the error raised by `_report_error` names the
extractor (not the content id — see the counterexample); a provider
`message` is included verbatim; otherwise a provider `code` is included;
otherwise a generic cannot-extract message is raised. -/
theorem claim_C9 (result : VideoInfo) :
    (∀ m, result.message = some m →
      reportErrorMsg result = IE_NAME ++ " said: " ++ m ∧
      strContainsStr (reportErrorMsg result) m = true) ∧
    (∀ c, result.message = none → result.code = some c →
      reportErrorMsg result = IE_NAME ++ " returns error " ++ toString c) ∧
    (result.message = none → result.code = none →
      reportErrorMsg result = "Can\x27t extract Bangumi episode ID") := by
  refine ⟨?_, ?_, ?_⟩
  · intro m hm
    have h1 : reportErrorMsg result = IE_NAME ++ " said: " ++ m := by
      simp [reportErrorMsg, hm]
    refine ⟨h1, ?_⟩
    rw [h1]
    show isInfixB m.data (IE_NAME ++ " said: " ++ m).data = true
    rw [String.data_append]
    exact isInfixB_append_self _ _
  · intro c hm hc
    simp [reportErrorMsg, hm, hc]
  · intro hm hc
    simp [reportErrorMsg, hm, hc]

def wErrVI : VideoInfo := { message := some "oops" }

/-- Counterexample to claim C9 as stated: the fatal error for content id
`"1074402"` (the id of the source's own first test) does not name that
content id anywhere in its message — `_report_error` is not even given the
id; the message names the extractor instead. -/
theorem claim_C9_cx :
    reportErrorMsg wErrVI = "BiliBili said: oops" ∧
    strContainsStr (reportErrorMsg wErrVI) "1074402" = false := by decide

/-- Witness for claim C9: a provider message is included verbatim. -/
theorem claim_C9_witness :
    wErrVI.message = some "oops" ∧
    reportErrorMsg wErrVI = IE_NAME ++ " said: " ++ "oops" ∧
    strContainsStr (reportErrorMsg wErrVI) "oops" = true :=
  ⟨rfl, ((claim_C9 wErrVI).1 "oops" rfl).1, ((claim_C9 wErrVI).1 "oops" rfl).2⟩

theorem legacyEntriesFrom_get (video_id pageUrl : String) :
    ∀ (ds : List Durl) (idx i : Nat) (di : Durl), ds.get? i = some di →
      (legacyEntriesFrom video_id pageUrl idx ds).get? i =
        some { id := video_id ++ "_part" ++ toString (idx + i)
               duration := float_or_none di.length 1000
               formats := partFormats di pageUrl } := by
  intro ds
  induction ds with
  | nil =>
    intro idx i di h
    simp at h
  | cons d ds ih =>
    intro idx i di h
    rcases i with _ | i
    · simp only [List.get?_cons_zero, Option.some.injEq] at h
      subst h
      simp [legacyEntriesFrom]
    · simp only [List.get?_cons_succ] at h
      have hrec := ih (idx + 1) i di h
      simp only [legacyEntriesFrom, List.get?_cons_succ]
      rw [hrec]
      have : idx + 1 + i = idx + (i + 1) := by omega
      rw [this]

theorem runRenditions_durl (video_id pageUrl : String) :
    ∀ (outcomes : List FetchOutcome) (entries : List Entry) (vi : VideoInfo)
      (ds : List Durl),
    runRenditions video_id pageUrl outcomes = .ok (entries, some vi) →
    vi.durl = some ds → entries = legacyEntries video_id pageUrl ds := by
  intro outcomes
  induction outcomes with
  | nil =>
    intro entries vi ds h hds
    simp [runRenditions] at h
  | cons o rest ih =>
    intro entries vi ds h hds
    cases o with
    | fail =>
      cases hre : rest.isEmpty
      · simp only [runRenditions, hre, Bool.false_eq_true, if_false] at h
        exact ih entries vi ds h hds
      · simp [runRenditions, hre] at h
    | resp vi2 =>
      cases hf : vi2.isFalsy
      · cases hdu : vi2.durl with
        | none =>
          cases hre : rest.isEmpty
          · simp only [runRenditions, hf, hdu, hre, Bool.false_eq_true, if_false] at h
            exact ih entries vi ds h hds
          · simp [runRenditions, hf, hdu, hre] at h
        | some ds2 =>
          simp only [runRenditions, hf, hdu, Bool.false_eq_true, if_false,
            Except.ok.injEq, Prod.mk.injEq, Option.some.injEq] at h
          obtain ⟨h1, h2⟩ := h
          subst h2
          rw [hdu] at hds
          injection hds with h3
          subst h3
          exact h1.symm
      · cases hre : rest.isEmpty
        · simp only [runRenditions, hf, hre, Bool.false_eq_true, if_false,
            if_true] at h
          exact ih entries vi ds h hds
        · simp only [runRenditions, hf, hre, if_true, Except.ok.injEq,
            Prod.mk.injEq, Option.some.injEq] at h
          obtain ⟨h1, h2⟩ := h
          have hnone : vi2.durl = none := by
            simp only [VideoInfo.isFalsy, Bool.and_eq_true, Option.isNone_iff_eq_none,
              Bool.not_eq_true'] at hf
            exact hf.1.1.1.1
          rw [← h2, hnone] at hds
          exact Option.noConfusion hds

/-- Claim C10: the shared-metadata update overwrites each legacy entry's
per-part duration (from that part's millisecond `length`) with the single
whole-video duration from the last legacy response's `timelength`, and
overwrites each entry's id with the parent video id, so every merged entry
carries the same duration. -/
theorem claim_C10 (video_id pageUrl title : String) (description : Option String)
    (timestamp : Option Int) (thumbnail uploader uploader_id : Option String)
    (outcomes : List FetchOutcome) (entries : List Entry) (vi : VideoInfo)
    (pe : Option PEntry)
    (h : runRenditions video_id pageUrl outcomes = .ok (entries, some vi)) :
    (∀ ds i di, vi.durl = some ds → ds.get? i = some di →
      entries.get? i =
        some { id := video_id ++ "_part" ++ toString i
               duration := float_or_none di.length 1000
               formats := partFormats di pageUrl }) ∧
    ∀ e, e ∈ applySharedInfo
        (mkInfo video_id title description timestamp thumbnail uploader
          uploader_id (some vi))
        (mergePlayinfo video_id entries pe) →
      e.duration = float_or_none vi.timelength 1000 ∧ e.id = video_id := by
  constructor
  · intro ds i di hds hdi
    have he := runRenditions_durl video_id pageUrl outcomes entries vi ds h hds
    subst he
    have hg := legacyEntriesFrom_get video_id pageUrl ds 0 i di hdi
    simpa [legacyEntries] using hg
  · intro e he
    rcases List.mem_map.mp he with ⟨e0, _, rfl⟩
    exact ⟨rfl, rfl⟩

def wC10D : Durl := { url := "http://p.flv", size := 100, length := some 308067 }

def wC10VI : VideoInfo := { durl := some [wC10D], timelength := some 308067 }

/-- Witness for claim C10 at a one-rendition, one-part resolution. -/
theorem claim_C10_witness :
    (runRenditions "1074402" "http://page" [.resp wC10VI] =
      .ok (legacyEntries "1074402" "http://page" [wC10D], some wC10VI) ∧
     wC10VI.durl = some [wC10D] ∧
     ([wC10D].get? 0 = some wC10D)) ∧
    (legacyEntries "1074402" "http://page" [wC10D]).get? 0 =
      some { id := "1074402" ++ "_part" ++ toString 0
             duration := float_or_none wC10D.length 1000
             formats := partFormats wC10D "http://page" } :=
  ⟨⟨rfl, rfl, rfl⟩,
   (claim_C10 "1074402" "http://page" "t" none none none none none
     [.resp wC10VI] (legacyEntries "1074402" "http://page" [wC10D]) wC10VI none
     rfl).1 [wC10D] 0 wC10D rfl rfl⟩

end Bilibili
